import Mathlib

/-!
Shallow embedding of `public_ip_poster.py` (repository DPinato/public_ip_poster).

Strings are modelled as `List Char`.  Times (`time.time()`, file mtimes,
TTL values) are modelled as rationals `ℚ`, standing in for Python floats;
the program only ever subtracts and compares them, operations on which ℚ
and IEEE floats agree for the magnitudes involved.  Python exceptions are
modelled with `Except PyErr`.  File contents are modelled post-JSON-parse
(malformed JSON is an unhandled crash outside every claim's scope), and
Python dicts are modelled as association lists with Python's
update-in-place-or-append semantics.
-/

deriving instance DecidableEq for Except

/-- Python exceptions that the modelled code can raise:
`ValueError` from `int()`, `KeyError` from a dict subscript. -/
inductive PyErr where
  | valueError
  | keyError
deriving DecidableEq

/-- Modelled fragment of Python `str.isdigit` on a single character: it
accepts characters of Unicode `Numeric_Type` Decimal or Digit.  The
fragment modelled here is the ASCII decimal digits plus the superscript
digits one, two, three (U+00B9, U+00B2, U+00B3), which have
`Numeric_Type=Digit` and are therefore accepted by `isdigit` but rejected
by `int()`. -/
def pyDigitChar (c : Char) : Bool :=
  c.isDigit || c = '¹' || c = '²' || c = '³'

/-- Python `str.isdigit`: non-empty and every character a digit character. -/
def pyIsdigit (s : List Char) : Bool :=
  !s.isEmpty && s.all pyDigitChar

/-- Base-10 value of a string of ASCII decimal digits, as computed by
Python `int()` on such a string. -/
def digitsToNat (s : List Char) : Nat :=
  s.foldl (fun a c => 10 * a + (c.toNat - 48)) 0

/-- Python `int(s)` as called in `validate_ip`: succeeds exactly on
non-empty strings of `Numeric_Type=Decimal` digits (in the modelled
character fragment: ASCII decimal digits), raising `ValueError`
otherwise.  Sign/whitespace handling of `int()` is irrelevant here
because the caller guards the call with `isdigit()`. -/
def pyInt (s : List Char) : Except PyErr Nat :=
  if !s.isEmpty && s.all Char.isDigit then .ok (digitsToNat s) else .error .valueError

/-- Python `s.split(".")` on `List Char`: splitting on every occurrence of
the dot, keeping empty pieces, with `splitDot [] = [[]]` just as
`"".split(".") == [""]`. -/
def splitDot : List Char → List (List Char)
  | [] => [[]]
  | c :: cs =>
    let r := splitDot cs
    if c = '.' then [] :: r else (c :: r.headD []) :: r.tail

/-- One conjunct of the generator expression in `validate_ip`:
`part.isdigit() and 0 <= int(part) <= 255`.  Python's `and`
short-circuits, so `int` is only evaluated (and can only raise) when
`isdigit()` returned true. -/
def checkPart (p : List Char) : Except PyErr Bool :=
  if pyIsdigit p then
    match pyInt p with
    | .error e => .error e
    | .ok n => .ok (decide (0 ≤ n) && decide (n ≤ 255))
  else .ok false

/-- Python `all(...)` over the parts, short-circuiting on the first falsy
element and propagating any exception raised while producing an element. -/
def pyAll : List (List Char) → Except PyErr Bool
  | [] => .ok true
  | p :: ps =>
    match checkPart p with
    | .error e => .error e
    | .ok true => pyAll ps
    | .ok false => .ok false

/-- `validate_ip` from `public_ip_poster.py` (lines 37-43):
split on `"."`; return `False` if there are not exactly 4 parts or not
all parts satisfy `part.isdigit() and 0 <= int(part) <= 255`, else
`True`.  The `or` in the source short-circuits, so `all` runs only when
there are exactly 4 parts. -/
def validate_ip (s : List Char) : Except PyErr Bool :=
  let parts := splitDot s
  if parts.length ≠ 4 then .ok false
  else
    match pyAll parts with
    | .error e => .error e
    | .ok b => .ok (if ¬ b then false else true)

/-- Removal of a maximal whitespace suffix, the trailing half of Python
`str.strip()`: a character is kept when something non-whitespace survives
after it or when it is itself non-whitespace. -/
def dropTrailWs : List Char → List Char
  | [] => []
  | c :: cs =>
    let r := dropTrailWs cs
    if r.isEmpty && c.isWhitespace then [] else c :: r

/-- Python `str.strip()` (no argument): remove the maximal leading and
trailing whitespace runs.  `Char.isWhitespace` covers space, tab, CR,
LF — the whitespace characters arising in the IP-echo responses the
program handles. -/
def pyStrip (s : List Char) : List Char :=
  dropTrailWs (List.dropWhile Char.isWhitespace s)

/-- Joining with dots, the inverse of `splitDot`; used to state what
`s.split(".")` decomposes. -/
def joinDot : List (List Char) → List Char
  | [] => []
  | [p] => p
  | p :: ps => p ++ '.' :: joinDot ps

/-- Python dict assignment `d[k] = v` on an association list: replace the
value at the first occurrence of `k` in place, else append at the end
(Python dicts preserve insertion order). -/
def dictSet (k : String) (v : List Char) : List (String × List Char) → List (String × List Char)
  | [] => [(k, v)]
  | (k', v') :: rest => if k' = k then (k, v) :: rest else (k', v') :: dictSet k v rest

/-- Loop body of `get_public_ip` (lines 50-62), one iteration per service
URL.  `respond u` models `requests.get(u, timeout=5)` followed by
`raise_for_status()`: `.error` is a `requests.RequestException`, which the
`except` clause catches (log a warning, continue); `.ok body` is the
response text.  The body is stripped; a non-empty stripped body is
validated and, if valid, stored under the service URL.  An exception
raised by `validate_ip` itself is NOT a `RequestException` and therefore
propagates out of the loop. -/
def getPublicIpAux (respond : String → Except Unit (List Char)) :
    List String → List (String × List Char) → Except PyErr (List (String × List Char))
  | [], acc => .ok acc
  | u :: rest, acc =>
    match respond u with
    | .error _ => getPublicIpAux respond rest acc
    | .ok body =>
      let ip_address := pyStrip body
      if ip_address.isEmpty then getPublicIpAux respond rest acc
      else
        match validate_ip ip_address with
        | .error e => .error e
        | .ok true => getPublicIpAux respond rest (dictSet u ip_address acc)
        | .ok false => getPublicIpAux respond rest acc

/-- `get_public_ip` (lines 46-64), parameterised by the list of service
URLs and the HTTP collaborator; the source iterates
`PUBLIC_IP_SERVICE_URL_LIST` with `public_ip_list = {}` initially. -/
def get_public_ip (urls : List String) (respond : String → Except Unit (List Char)) :
    Except PyErr (List (String × List Char)) :=
  getPublicIpAux respond urls []

/-- The concrete service list of the source (lines 20-23). -/
def PUBLIC_IP_SERVICE_URL_LIST : List String :=
  ["https://ipinfo.io/ip", "https://checkip.amazonaws.com"]

/-- The parsed content of the cache file: the JSON object
`{"timestamp": ..., "services": ...}`.  `timestamp` is `none` when the
key is absent from the object; a present numeric timestamp is truthy in
Python iff it is nonzero.  The `services` payload is opaque to the cache
logic, hence a type parameter. -/
structure CacheJson (α : Type) where
  timestamp : Option ℚ
  services : α
deriving DecidableEq

/-- `save_ip_list_to_cache` (lines 88-100): the record written to the
cache file, `{"timestamp": time.time(), "services": ip_list}`.  The file
write itself (and its swallowed `IOError`) is the I/O collaborator. -/
def save_ip_list_to_cache (now : ℚ) (ip_list : α) : CacheJson α :=
  { timestamp := some now, services := ip_list }

/-- `check_cache_staleness` (lines 103-141).  `fs` is the state of the
cache file: `none` when `os.path.exists` is false, otherwise the parsed
record together with the file's mtime.  The source does
`json_cache["timestamp"]` — a subscript, raising `KeyError` when the key
is absent — and falls back to the mtime only when the key is present but
falsy.  On a fresh cache the file is re-read and the (unchanged) parsed
record returned; on a stale cache or a missing file it returns `None`. -/
def check_cache_staleness (fs : Option (CacheJson α × ℚ)) (now ttl : ℚ) :
    Except PyErr (Option (CacheJson α)) :=
  match fs with
  | none => .ok none
  | some (json_cache, mtimeOfFile) =>
    match json_cache.timestamp with
    | none => .error .keyError
    | some t =>
      let cache_timestamp := if t ≠ 0 then t else mtimeOfFile
      let cache_age := now - cache_timestamp
      if cache_age < ttl then .ok (some json_cache) else .ok none

/-- A destination entry from the configuration's `destination_list`.
Per the configuration contract every entry carries a `type` tag, and an
`"scp"` entry carries the connection fields. -/
structure DestSpec where
  type : String
  name : String
  host : String
  port : Nat
  username : String
  identity_file : String
  remote_dir : String
deriving DecidableEq

/-- Observable outcome of dispatching one destination. -/
inductive DestEv where
  | scpUploaded (name : String)
  | scpFailed (name : String)
  | warnedUnknown (t : String)
deriving DecidableEq

/-- `run_destination_op_scp` (lines 153-181): connect and upload via the
SSH/SCP collaborator (modelled by `transport`); every exception from the
attempt is caught and logged (`except Exception`), and the connection is
closed in `finally`, so the call never raises. -/
def run_destination_op_scp (op : DestSpec) (transport : DestSpec → Except Unit Unit) : DestEv :=
  match transport op with
  | .ok _ => .scpUploaded op.name
  | .error _ => .scpFailed op.name

/-- `run_destination_op` (lines 144-150): dispatch on the `type` tag;
an unknown tag logs a warning and does nothing else. -/
def run_destination_op (op : DestSpec) (transport : DestSpec → Except Unit Unit) : DestEv :=
  if op.type = "scp" then run_destination_op_scp op transport
  else .warnedUnknown op.type

/-- The destination loop of `main` (lines 270-274): dispatch each entry
of `destination_list` in order, collecting the observable outcomes. -/
def runDestinations (dests : List DestSpec) (transport : DestSpec → Except Unit Unit) :
    List DestEv :=
  match dests with
  | [] => []
  | d :: rest => run_destination_op d transport :: runDestinations rest transport

/-- Observable cache-phase operations of `main`: reading/parsing the
cache file (`check_cache_staleness`), running the resolver
(`get_public_ip`), and writing the cache file
(`save_ip_list_to_cache`). -/
inductive MainEv where
  | evLoadCache
  | evResolve
  | evSaveCache
deriving DecidableEq

/-- How the cache phase of `main` ended. -/
inductive PhaseOutcome (α : Type) where
  | usedCache (rec : CacheJson α)
  | usedFresh (m : List (String × List Char))
  | exitedNoIp
deriving DecidableEq

/-- The cache phase of `main` (lines 247-264).  The source calls
`check_cache_staleness` unconditionally, then tests
`if public_ip_list and not args.ignore_cache`; a record returned by the
load is a non-empty dict, hence truthy.  On the fresh path it runs
`get_public_ip`; an empty result means `os._exit(-1)`, otherwise the
result is saved to the cache file.  The returned trace records which of
the three operations ran, in order. -/
def mainCachePhase (ignore_cache : Bool) (fs : Option (CacheJson α × ℚ)) (now ttl : ℚ)
    (urls : List String) (respond : String → Except Unit (List Char)) :
    Except PyErr (List MainEv × PhaseOutcome α) :=
  match check_cache_staleness fs now ttl with
  | .error e => .error e
  | .ok loaded =>
    match loaded, ignore_cache with
    | some j, false => .ok ([.evLoadCache], .usedCache j)
    | _, _ =>
      match get_public_ip urls respond with
      | .error e => .error e
      | .ok m =>
        if m.isEmpty then .ok ([.evLoadCache, .evResolve], .exitedNoIp)
        else .ok ([.evLoadCache, .evResolve, .evSaveCache], .usedFresh m)

/-- Spec-side segment condition for the validator claims: a non-empty
string of ASCII decimal digits whose base-10 value is at most 255. -/
def SegOk (p : List Char) : Prop :=
  p ≠ [] ∧ (∀ c ∈ p, c.isDigit) ∧ digitsToNat p ≤ 255

/-- Spec-side characterisation of a valid dotted-quad: exactly four
dot-separated segments, each a base-10 integer string with value in
[0,255]. -/
def IsDottedQuad (s : List Char) : Prop :=
  ∃ p1 p2 p3 p4, s = p1 ++ '.' :: (p2 ++ '.' :: (p3 ++ '.' :: p4)) ∧
    SegOk p1 ∧ SegOk p2 ∧ SegOk p3 ∧ SegOk p4

/-- Per-endpoint decision of `get_public_ip`, as a function of the
collaborator's response: the stripped body when the query succeeded, the
stripped body is non-empty and it validates; `none` otherwise. -/
def entryFor (respond : String → Except Unit (List Char)) (u : String) : Option (List Char) :=
  match respond u with
  | .error _ => none
  | .ok body =>
    if (pyStrip body).isEmpty then none
    else
      match validate_ip (pyStrip body) with
      | .ok true => some (pyStrip body)
      | _ => none

/-! ## Lemmas about `splitDot` -/

theorem splitDot_ne_nil : ∀ s : List Char, splitDot s ≠ []
  | [] => by simp [splitDot]
  | c :: cs => by
    simp only [splitDot]
    split <;> simp

theorem splitDot_append_dot : ∀ (p rest : List Char), '.' ∉ p →
    splitDot (p ++ '.' :: rest) = p :: splitDot rest
  | [], rest, _ => by simp [splitDot]
  | c :: p, rest, h => by
    have hc : c ≠ '.' := by
      intro hh
      exact h (by simp [hh])
    have hp : '.' ∉ p := fun hm => h (List.mem_cons_of_mem _ hm)
    have ih := splitDot_append_dot p rest hp
    simp [splitDot, hc, ih]

theorem splitDot_no_dot : ∀ (p : List Char), '.' ∉ p → splitDot p = [p]
  | [], _ => rfl
  | c :: p, h => by
    have hc : c ≠ '.' := by
      intro hh
      exact h (by simp [hh])
    have hp : '.' ∉ p := fun hm => h (List.mem_cons_of_mem _ hm)
    have ih := splitDot_no_dot p hp
    simp [splitDot, hc, ih]

theorem joinDot_splitDot : ∀ s : List Char, joinDot (splitDot s) = s
  | [] => rfl
  | c :: cs => by
    have ih := joinDot_splitDot cs
    have hne := splitDot_ne_nil cs
    obtain ⟨h, t, ht⟩ := List.exists_cons_of_ne_nil hne
    by_cases hc : c = '.'
    · subst hc
      rw [show splitDot ('.' :: cs) = [] :: splitDot cs from by simp [splitDot], ht]
      rw [ht] at ih
      simpa [joinDot] using ih
    · rw [show splitDot (c :: cs) = (c :: (splitDot cs).headD []) :: (splitDot cs).tail
        from by simp [splitDot, hc], ht]
      rw [ht] at ih
      cases t with
      | nil => simpa [joinDot] using congrArg (c :: ·) ih
      | cons h2 t2 => simpa [joinDot] using congrArg (c :: ·) ih

theorem mem_splitDot_no_dot : ∀ (s p : List Char), p ∈ splitDot s → '.' ∉ p
  | [], p, hp => by
    simp [splitDot] at hp
    subst hp
    simp
  | c :: cs, p, hp => by
    have hne := splitDot_ne_nil cs
    obtain ⟨h, t, ht⟩ := List.exists_cons_of_ne_nil hne
    by_cases hc : c = '.'
    · subst hc
      simp [splitDot] at hp
      rcases hp with rfl | hp
      · simp
      · exact mem_splitDot_no_dot cs p hp
    · rw [show splitDot (c :: cs) = (c :: (splitDot cs).headD []) :: (splitDot cs).tail
        from by simp [splitDot, hc], ht] at hp
      simp at hp
      rcases hp with rfl | hp
      · have hh : '.' ∉ h := mem_splitDot_no_dot cs h (by rw [ht]; exact List.mem_cons_self _ _)
        intro hm
        rcases List.mem_cons.mp hm with h1 | h1
        · exact hc h1.symm
        · exact hh h1
      · exact mem_splitDot_no_dot cs p (by rw [ht]; exact List.mem_cons_of_mem _ hp)

theorem mem_splitDot_subset : ∀ (s p : List Char), p ∈ splitDot s → ∀ c ∈ p, c ∈ s
  | [], p, hp => by
    simp [splitDot] at hp
    subst hp
    simp
  | c :: cs, p, hp => by
    have hne := splitDot_ne_nil cs
    obtain ⟨h, t, ht⟩ := List.exists_cons_of_ne_nil hne
    by_cases hc : c = '.'
    · subst hc
      simp [splitDot] at hp
      rcases hp with rfl | hp
      · simp
      · intro x hx
        exact List.mem_cons_of_mem _ (mem_splitDot_subset cs p hp x hx)
    · rw [show splitDot (c :: cs) = (c :: (splitDot cs).headD []) :: (splitDot cs).tail
        from by simp [splitDot, hc], ht] at hp
      simp at hp
      rcases hp with rfl | hp
      · intro x hx
        rcases List.mem_cons.mp hx with rfl | h1
        · exact List.mem_cons_self _ _
        · exact List.mem_cons_of_mem _
            (mem_splitDot_subset cs h (by rw [ht]; exact List.mem_cons_self _ _) x h1)
      · intro x hx
        exact List.mem_cons_of_mem _
          (mem_splitDot_subset cs p (by rw [ht]; exact List.mem_cons_of_mem _ hp) x hx)

/-! ## Characterisation of `validate_ip` -/


theorem isEmpty_false_iff (l : List Char) : l.isEmpty = false ↔ l ≠ [] := by
  cases l <;> simp

theorem checkPart_eq_ok_true_iff (p : List Char) : checkPart p = .ok true ↔ SegOk p := by
  constructor
  · intro h
    unfold checkPart at h
    by_cases hd : pyIsdigit p
    · rw [if_pos hd] at h
      cases hpi : pyInt p with
      | error e => rw [hpi] at h; cases h
      | ok n =>
        rw [hpi] at h
        simp only [Except.ok.injEq, Bool.and_eq_true, decide_eq_true_eq] at h
        unfold pyInt at hpi
        by_cases hall : (!p.isEmpty && p.all Char.isDigit) = true
        · rw [if_pos hall] at hpi
          injection hpi with hn
          simp only [Bool.and_eq_true, Bool.not_eq_true', isEmpty_false_iff,
            List.all_eq_true] at hall
          exact ⟨hall.1, fun c hc => hall.2 c hc, by rw [hn]; exact h.2⟩
        · rw [if_neg hall] at hpi; cases hpi
    · rw [if_neg hd] at h
      cases h
  · rintro ⟨hne, hdig, hval⟩
    have hall : (!p.isEmpty && p.all Char.isDigit) = true := by
      simp only [Bool.and_eq_true, Bool.not_eq_true', isEmpty_false_iff,
        List.all_eq_true]
      exact ⟨hne, fun c hc => hdig c hc⟩
    have hd : pyIsdigit p = true := by
      simp only [pyIsdigit, Bool.and_eq_true, Bool.not_eq_true', isEmpty_false_iff,
        List.all_eq_true] at hall ⊢
      exact ⟨hall.1, fun c hc => by simp [pyDigitChar, hall.2 c hc]⟩
    unfold checkPart pyInt
    rw [if_pos hd, if_pos hall]
    simp [hval]

theorem pyAll_eq_ok_true_iff : ∀ ps, pyAll ps = .ok true ↔ ∀ p ∈ ps, checkPart p = .ok true
  | [] => by simp [pyAll]
  | p :: ps => by
    simp only [pyAll]
    cases h : checkPart p with
    | error e =>
      constructor
      · intro hh; cases hh
      · intro hall
        have := hall p (List.mem_cons_self _ _)
        rw [h] at this
        cases this
    | ok b =>
      cases b
      · constructor
        · intro hh; cases hh
        · intro hall
          have := hall p (List.mem_cons_self _ _)
          rw [h] at this
          simp at this
      · rw [pyAll_eq_ok_true_iff ps]
        constructor
        · intro hall q hq
          rcases List.mem_cons.mp hq with rfl | hq
          · exact h
          · exact hall q hq
        · intro hall q hq
          exact hall q (List.mem_cons_of_mem _ hq)

theorem validate_ip_eq_ok_true_iff (s : List Char) :
    validate_ip s = .ok true ↔ ((splitDot s).length = 4 ∧ ∀ p ∈ splitDot s, SegOk p) := by
  unfold validate_ip
  by_cases hl : (splitDot s).length = 4
  · rw [if_neg (by simp [hl])]
    cases h : pyAll (splitDot s) with
    | error e =>
      constructor
      · intro hh; cases hh
      · rintro ⟨-, hall⟩
        have hok := (pyAll_eq_ok_true_iff (splitDot s)).mpr
          (fun p hp => (checkPart_eq_ok_true_iff p).mpr (hall p hp))
        rw [h] at hok
        cases hok
    | ok b =>
      cases b
      · simp only [Bool.false_eq_true, not_false_eq_true, if_true]
        constructor
        · intro hh; cases hh
        · rintro ⟨-, hall⟩
          have hok := (pyAll_eq_ok_true_iff (splitDot s)).mpr
            (fun p hp => (checkPart_eq_ok_true_iff p).mpr (hall p hp))
          rw [h] at hok
          cases hok
      · simp only [not_true, if_neg, ite_false]
        constructor
        · intro _
          exact ⟨hl, fun p hp => (checkPart_eq_ok_true_iff p).mp
            ((pyAll_eq_ok_true_iff (splitDot s)).mp h p hp)⟩
        · intro _
          simp
  · rw [if_pos (by simpa using hl)]
    constructor
    · intro hh; cases hh
    · rintro ⟨h4, -⟩
      exact absurd h4 hl

theorem list_len_four {α : Type} : ∀ (l : List α), l.length = 4 → ∃ a b c d, l = [a, b, c, d]
  | [a, b, c, d], _ => ⟨a, b, c, d, rfl⟩
  | [], h => by simp at h
  | [_], h => by simp at h
  | [_, _], h => by simp at h
  | [_, _, _], h => by simp at h
  | _ :: _ :: _ :: _ :: _ :: _, h => by simp at h

theorem segOk_not_dot {p : List Char} (hp : SegOk p) : '.' ∉ p :=
  fun hm => absurd (hp.2.1 '.' hm) (by decide)

theorem validate_ip_ok_true_iff_quad (s : List Char) :
    validate_ip s = .ok true ↔ IsDottedQuad s := by
  rw [validate_ip_eq_ok_true_iff]
  constructor
  · rintro ⟨h4, hall⟩
    obtain ⟨p1, p2, p3, p4, hps⟩ := list_len_four _ h4
    have hj := joinDot_splitDot s
    rw [hps] at hj hall
    refine ⟨p1, p2, p3, p4, ?_, ?_, ?_, ?_, ?_⟩
    · rw [← hj]; simp [joinDot]
    · exact hall p1 (by simp)
    · exact hall p2 (by simp)
    · exact hall p3 (by simp)
    · exact hall p4 (by simp)
  · rintro ⟨p1, p2, p3, p4, rfl, h1, h2, h3, h4⟩
    have hsplit : splitDot (p1 ++ '.' :: (p2 ++ '.' :: (p3 ++ '.' :: p4))) = [p1, p2, p3, p4] := by
      rw [splitDot_append_dot _ _ (segOk_not_dot h1),
        splitDot_append_dot _ _ (segOk_not_dot h2),
        splitDot_append_dot _ _ (segOk_not_dot h3),
        splitDot_no_dot _ (segOk_not_dot h4)]
    rw [hsplit]
    refine ⟨rfl, ?_⟩
    intro p hp
    simp at hp
    rcases hp with rfl | rfl | rfl | rfl <;> assumption

/-- C5: for every string s, `validate_ip` returns true iff s consists of
exactly four dot-separated segments, each an all-digit string whose
base-10 value lies in [0,255]; in particular the five concrete examples
of the spec evaluate as stated. -/
theorem validate_ip_dotted_quad_spec :
    (∀ s : List Char, validate_ip s = .ok true ↔ IsDottedQuad s) ∧
    validate_ip "256.1.1.1".toList = .ok false ∧
    validate_ip "1.2.3".toList = .ok false ∧
    validate_ip "1.2.3.4.5".toList = .ok false ∧
    validate_ip "abc.1.1.1".toList = .ok false ∧
    validate_ip "192.168.1.1".toList = .ok true :=
  ⟨validate_ip_ok_true_iff_quad, by decide, by decide, by decide, by decide, by decide⟩

/-- C5 witness: the characterisation applied at a concrete address. -/
theorem validate_ip_dotted_quad_spec_witness : validate_ip "10.0.0.1".toList = .ok true :=
  (validate_ip_dotted_quad_spec.1 "10.0.0.1".toList).mpr
    ⟨['1', '0'], ['0'], ['0'], ['1'], by decide, ⟨by decide, by decide, by decide⟩,
      ⟨by decide, by decide, by decide⟩, ⟨by decide, by decide, by decide⟩,
      ⟨by decide, by decide, by decide⟩⟩

/-- C6 counterexample: a string with a leading-zero segment is NOT
rejected: `validate_ip "001.1.1.1"` returns true, refuting the claim that
leading-zero segments make the validator return false. -/
theorem validate_ip_leading_zero_counterexample :
    validate_ip "001.1.1.1".toList = .ok true := by decide

/-- C6 amended: leading zeros are accepted, not rejected: prepending a
zero to the first segment of any valid dotted-quad leaves `validate_ip`
true, because `"0…".isdigit()` holds and `int()` ignores leading zeros. -/
theorem validate_ip_leading_zero_accepted (p1 p2 p3 p4 : List Char)
    (h1 : SegOk p1) (h2 : SegOk p2) (h3 : SegOk p3) (h4 : SegOk p4) :
    validate_ip (('0' :: p1) ++ '.' :: (p2 ++ '.' :: (p3 ++ '.' :: p4))) = .ok true := by
  apply (validate_ip_ok_true_iff_quad _).mpr
  refine ⟨'0' :: p1, p2, p3, p4, rfl, ⟨by simp, ?_, ?_⟩, h2, h3, h4⟩
  · intro c hc
    rcases List.mem_cons.mp hc with rfl | hc
    · decide
    · exact h1.2.1 c hc
  · show digitsToNat ('0' :: p1) ≤ 255
    have : digitsToNat ('0' :: p1) = digitsToNat p1 := rfl
    rw [this]
    exact h1.2.2

/-- C6 witness for the amended claim, at the segments of "07.1.1.1". -/
theorem validate_ip_leading_zero_accepted_witness :
    validate_ip (('0' :: ['7']) ++ '.' :: (['1'] ++ '.' :: (['1'] ++ '.' :: ['1']))) = .ok true :=
  validate_ip_leading_zero_accepted ['7'] ['1'] ['1'] ['1']
    ⟨by decide, by decide, by decide⟩ ⟨by decide, by decide, by decide⟩
    ⟨by decide, by decide, by decide⟩ ⟨by decide, by decide, by decide⟩

/-- C7 counterexample: `validate_ip` can raise: on "².1.1.1" the segment
"²" passes `isdigit()` (Unicode Numeric_Type=Digit) but `int()` rejects
it, so the Python function raises ValueError instead of returning a
boolean. -/
theorem validate_ip_superscript_raises :
    validate_ip "².1.1.1".toList = .error .valueError := by decide

/-- C7 amended: on every string whose isdigit-passing characters are
ASCII decimal digits (in particular every ASCII string), `validate_ip`
terminates normally with a boolean and raises nothing. -/
theorem validate_ip_total_on_decimal_digits (s : List Char)
    (h : ∀ c ∈ s, pyDigitChar c = true → c.isDigit = true) :
    ∃ b, validate_ip s = .ok b := by
  unfold validate_ip
  by_cases hl : (splitDot s).length = 4
  · rw [if_neg (by simp [hl])]
    have hall : ∀ ps, (∀ p ∈ ps, ∀ c ∈ p, pyDigitChar c = true → c.isDigit = true) →
        ∃ b, pyAll ps = .ok b := by
      intro ps
      induction ps with
      | nil => exact fun _ => ⟨true, rfl⟩
      | cons p ps ih =>
        intro hps
        have hcp : ∃ b, checkPart p = .ok b := by
          unfold checkPart
          by_cases hd : pyIsdigit p
          · rw [if_pos hd]
            simp only [pyIsdigit, Bool.and_eq_true, Bool.not_eq_true',
              isEmpty_false_iff, List.all_eq_true] at hd
            have hdig : (!p.isEmpty && p.all Char.isDigit) = true := by
              simp only [Bool.and_eq_true, Bool.not_eq_true', isEmpty_false_iff,
                List.all_eq_true]
              exact ⟨hd.1, fun c hc => hps p (List.mem_cons_self _ _) c hc (hd.2 c hc)⟩
            unfold pyInt
            rw [if_pos hdig]
            exact ⟨_, rfl⟩
          · rw [if_neg hd]
            exact ⟨false, rfl⟩
        obtain ⟨b, hb⟩ := hcp
        simp only [pyAll, hb]
        cases b
        · exact ⟨false, rfl⟩
        · exact ih (fun q hq => hps q (List.mem_cons_of_mem _ hq))
    obtain ⟨b, hb⟩ := hall (splitDot s)
      (fun p hp c hc => h c (mem_splitDot_subset s p hp c hc))
    rw [hb]
    cases b
    · exact ⟨false, by simp⟩
    · exact ⟨true, by simp⟩
  · rw [if_pos (by simpa using hl)]
    exact ⟨false, rfl⟩

/-- C7 witness: totality applied at the ASCII string "abc.1.1.1". -/
theorem validate_ip_total_on_decimal_digits_witness :
    ∃ b, validate_ip "abc.1.1.1".toList = .ok b :=
  validate_ip_total_on_decimal_digits "abc.1.1.1".toList (by decide)

/-! ## Lemmas about `pyStrip` and the resolver -/

theorem dropWhile_head_not (p : Char → Bool) :
    ∀ (l : List Char) (c : Char), (List.dropWhile p l).head? = some c → p c = false := by
  intro l
  induction l with
  | nil => intro c hc; cases hc
  | cons a l ih =>
    intro c hc
    by_cases ha : p a
    · rw [List.dropWhile_cons_of_pos ha] at hc
      exact ih c hc
    · rw [List.dropWhile_cons_of_neg ha] at hc
      injection hc with hc
      subst hc
      exact Bool.not_eq_true _ ▸ eq_false_of_ne_true ha

theorem dropTrailWs_getLast_not :
    ∀ (l : List Char) (c : Char), (dropTrailWs l).getLast? = some c → c.isWhitespace = false := by
  intro l
  induction l with
  | nil => intro c hc; cases hc
  | cons a l ih =>
    intro c hc
    simp only [dropTrailWs] at hc
    by_cases hcond : ((dropTrailWs l).isEmpty && a.isWhitespace) = true
    · rw [if_pos hcond] at hc
      cases hc
    · rw [if_neg hcond] at hc
      cases hr : dropTrailWs l with
      | nil =>
        rw [hr] at hc hcond
        simp only [List.getLast?_singleton, Option.some.injEq] at hc
        subst hc
        simpa using hcond
      | cons h t =>
        rw [hr] at hc
        rw [List.getLast?_cons_cons] at hc
        rw [← hr] at hc
        exact ih c hc

theorem dropTrailWs_head :
    ∀ l : List Char, dropTrailWs l = [] ∨ (dropTrailWs l).head? = l.head? := by
  intro l
  cases l with
  | nil => exact Or.inl rfl
  | cons a l =>
    simp only [dropTrailWs]
    by_cases hcond : ((dropTrailWs l).isEmpty && a.isWhitespace) = true
    · rw [if_pos hcond]
      exact Or.inl rfl
    · rw [if_neg hcond]
      exact Or.inr rfl

theorem pyStrip_head_not (s : List Char) (c : Char) :
    (pyStrip s).head? = some c → c.isWhitespace = false := by
  intro hc
  unfold pyStrip at hc
  rcases dropTrailWs_head (List.dropWhile Char.isWhitespace s) with he | he
  · rw [he] at hc
    cases hc
  · rw [he] at hc
    exact dropWhile_head_not _ s c hc

theorem pyStrip_getLast_not (s : List Char) (c : Char) :
    (pyStrip s).getLast? = some c → c.isWhitespace = false :=
  dropTrailWs_getLast_not _ c

theorem lookup_cons_eq (k k' : String) (v : List Char) (m : List (String × List Char)) :
    List.lookup k' ((k, v) :: m) = if k' = k then some v else List.lookup k' m := by
  simp only [List.lookup_cons]
  by_cases h : k' = k
  · simp [h]
  · simp [h, beq_false_of_ne h]

theorem dictSet_lookup (k : String) (v : List Char) :
    ∀ (m : List (String × List Char)) (k' : String),
    (dictSet k v m).lookup k' = if k' = k then some v else m.lookup k' := by
  intro m
  induction m with
  | nil =>
    intro k'
    simp only [dictSet]
    rw [lookup_cons_eq]
  | cons e m ih =>
    intro k'
    obtain ⟨ka, va⟩ := e
    simp only [dictSet]
    by_cases hk : ka = k
    · subst hk
      rw [if_pos rfl, lookup_cons_eq, lookup_cons_eq]
      by_cases h1 : k' = ka <;> simp [h1]
    · rw [if_neg hk, lookup_cons_eq, ih k', lookup_cons_eq]
      by_cases h1 : k' = ka
      · subst h1
        have h2 : ¬ k' = k := fun hh => hk (hh ▸ rfl)
        simp [h2]
      · by_cases h2 : k' = k
        · simp only [h1, h2, if_true, if_false, if_neg h1]
          rw [if_neg (fun hh => hk hh.symm)]
        · simp [h1, h2]

theorem entryFor_eq_some_iff (respond : String → Except Unit (List Char)) (u : String)
    (ip : List Char) :
    entryFor respond u = some ip ↔
      ∃ body, respond u = .ok body ∧ pyStrip body ≠ [] ∧
        validate_ip (pyStrip body) = .ok true ∧ ip = pyStrip body := by
  unfold entryFor
  cases hr : respond u with
  | error e =>
    simp only []
    constructor
    · intro hh; cases hh
    · rintro ⟨body, hb, -⟩
      cases hb
  | ok body =>
    dsimp only
    by_cases he : (pyStrip body).isEmpty
    · rw [if_pos he]
      constructor
      · intro hh; cases hh
      · rintro ⟨body2, hb, hne, -⟩
        injection hb with hb
        subst hb
        rw [List.isEmpty_iff] at he
        exact absurd he hne
    · rw [if_neg he]
      cases hv : validate_ip (pyStrip body) with
      | error e =>
        constructor
        · intro hh; cases hh
        · rintro ⟨body2, hb, -, hval, -⟩
          injection hb with hb
          subst hb
          rw [hv] at hval
          cases hval
      | ok b =>
        cases b
        · constructor
          · intro hh; cases hh
          · rintro ⟨body2, hb, -, hval, -⟩
            injection hb with hb
            subst hb
            rw [hv] at hval
            cases hval
        · constructor
          · intro hh
            injection hh with hh
            exact ⟨body, rfl, by
              intro hnil
              rw [List.isEmpty_iff] at he
              exact he hnil, hv, hh.symm⟩
          · rintro ⟨body2, hb, -, -, hip⟩
            injection hb with hb
            subst hb
            rw [hip]

theorem getPublicIpAux_lookup (respond : String → Except Unit (List Char)) :
    ∀ (urls : List String) (acc : List (String × List Char)),
    (∀ u ∈ urls, ∀ body, respond u = .ok body → ∃ b, validate_ip (pyStrip body) = .ok b) →
    ∃ m, getPublicIpAux respond urls acc = .ok m ∧
      ∀ u, m.lookup u = (if u ∈ urls then entryFor respond u else none).or (acc.lookup u) := by
  intro urls
  induction urls with
  | nil =>
    intro acc _
    exact ⟨acc, rfl, fun u => by simp⟩
  | cons u0 rest ih =>
    intro acc hsafe
    have hsafe' : ∀ u ∈ rest, ∀ body, respond u = .ok body →
        ∃ b, validate_ip (pyStrip body) = .ok b :=
      fun u hu => hsafe u (List.mem_cons_of_mem _ hu)
    cases hr : respond u0 with
    | error e =>
      have he : entryFor respond u0 = none := by simp [entryFor, hr]
      obtain ⟨m, hm, hl⟩ := ih acc hsafe'
      refine ⟨m, by simpa [getPublicIpAux, hr] using hm, ?_⟩
      intro u
      rw [hl u]
      by_cases hu : u = u0
      · subst hu
        by_cases hmem : u ∈ rest <;> simp [hmem, he]
      · simp [List.mem_cons, hu]
    | ok body =>
      by_cases hemp : (pyStrip body).isEmpty
      · have he : entryFor respond u0 = none := by simp [entryFor, hr, hemp]
        obtain ⟨m, hm, hl⟩ := ih acc hsafe'
        refine ⟨m, by simpa [getPublicIpAux, hr, hemp] using hm, ?_⟩
        intro u
        rw [hl u]
        by_cases hu : u = u0
        · subst hu
          by_cases hmem : u ∈ rest <;> simp [hmem, he]
        · simp [List.mem_cons, hu]
      · obtain ⟨b, hv⟩ := hsafe u0 (List.mem_cons_self _ _) body hr
        cases b
        · have he : entryFor respond u0 = none := by simp [entryFor, hr, hemp, hv]
          obtain ⟨m, hm, hl⟩ := ih acc hsafe'
          refine ⟨m, by simpa [getPublicIpAux, hr, hemp, hv] using hm, ?_⟩
          intro u
          rw [hl u]
          by_cases hu : u = u0
          · subst hu
            by_cases hmem : u ∈ rest <;> simp [hmem, he]
          · simp [List.mem_cons, hu]
        · have he : entryFor respond u0 = some (pyStrip body) := by
            simp [entryFor, hr, hemp, hv]
          obtain ⟨m, hm, hl⟩ := ih (dictSet u0 (pyStrip body) acc) hsafe'
          refine ⟨m, by simpa [getPublicIpAux, hr, hemp, hv] using hm, ?_⟩
          intro u
          rw [hl u, dictSet_lookup]
          by_cases hu : u = u0
          · subst hu
            by_cases hmem : u ∈ rest <;> simp [hmem, he, Option.or]
          · simp [List.mem_cons, hu]

/-- C4 counterexample: with the source's two services, a first response
whose body is the invalid address "².1.1.1" makes `get_public_ip` raise
ValueError (via `validate_ip`) instead of skipping it: the whole
resolver aborts and the second endpoint's valid answer "10.0.0.1" is
never recorded, refuting "an invalid address is skipped and does not
abort processing of the remaining endpoints". -/
theorem get_public_ip_invalid_aborts_counterexample :
    get_public_ip PUBLIC_IP_SERVICE_URL_LIST
      (fun u => if u = "https://ipinfo.io/ip" then .ok "².1.1.1".toList
                else .ok "10.0.0.1".toList) = .error .valueError := by decide

/-- C4 amended: provided no response body makes `validate_ip` raise
(every isdigit-passing character of a stripped body is an ASCII decimal
digit), the resolver returns a mapping containing an entry keyed by a
service iff that service's query succeeded with a body whose stripped
form is non-empty and validates; erroring, empty-bodied and invalid
endpoints are skipped without aborting the others. -/
theorem get_public_ip_lookup_iff (urls : List String)
    (respond : String → Except Unit (List Char))
    (hsafe : ∀ u ∈ urls, ∀ body, respond u = .ok body →
      ∃ b, validate_ip (pyStrip body) = .ok b) :
    ∃ m, get_public_ip urls respond = .ok m ∧
      ∀ u ip, (m.lookup u = some ip ↔
        u ∈ urls ∧ ∃ body, respond u = .ok body ∧ pyStrip body ≠ [] ∧
          validate_ip (pyStrip body) = .ok true ∧ ip = pyStrip body) := by
  obtain ⟨m, hm, hl⟩ := getPublicIpAux_lookup respond urls [] hsafe
  refine ⟨m, hm, ?_⟩
  intro u ip
  rw [hl u]
  have hnil : List.lookup u ([] : List (String × List Char)) = none := rfl
  rw [hnil, Option.or_none]
  by_cases hu : u ∈ urls
  · rw [if_pos hu]
    constructor
    · intro h
      exact ⟨hu, (entryFor_eq_some_iff respond u ip).mp h⟩
    · rintro ⟨-, hb⟩
      exact (entryFor_eq_some_iff respond u ip).mpr hb
  · rw [if_neg hu]
    constructor
    · intro h; cases h
    · rintro ⟨hu', -⟩
      exact absurd hu' hu

/-- C4 witness: the amended characterisation at one concrete service
returning "10.0.0.1". -/
theorem get_public_ip_lookup_iff_witness :
    ∃ m, get_public_ip ["https://ipinfo.io/ip"]
        (fun _ => .ok "10.0.0.1".toList) = .ok m ∧
      ∀ u ip, (m.lookup u = some ip ↔
        u ∈ ["https://ipinfo.io/ip"] ∧ ∃ body,
          (fun _ => Except.ok (ε := Unit) "10.0.0.1".toList) u = .ok body ∧
          pyStrip body ≠ [] ∧
          validate_ip (pyStrip body) = .ok true ∧ ip = pyStrip body) :=
  get_public_ip_lookup_iff ["https://ipinfo.io/ip"] (fun _ => .ok "10.0.0.1".toList)
    (fun u _ body hb => by
      have hb' : Except.ok (ε := Unit) "10.0.0.1".toList = Except.ok body := hb
      injection hb' with hb'
      subst hb'
      exact ⟨true, by decide⟩)

theorem getPublicIpAux_values (respond : String → Except Unit (List Char)) :
    ∀ (urls : List String) (acc m : List (String × List Char)),
    getPublicIpAux respond urls acc = .ok m →
    ∀ u ip, m.lookup u = some ip →
      acc.lookup u = some ip ∨ ∃ body, ip = pyStrip body ∧ pyStrip body ≠ [] := by
  intro urls
  induction urls with
  | nil =>
    intro acc m hok u ip hl
    injection hok with hok
    subst hok
    exact Or.inl hl
  | cons u0 rest ih =>
    intro acc m hok u ip hl
    cases hr : respond u0 with
    | error e =>
      simp only [getPublicIpAux, hr] at hok
      exact ih acc m hok u ip hl
    | ok body =>
      by_cases hemp : (pyStrip body).isEmpty
      · simp only [getPublicIpAux, hr, hemp, if_true] at hok
        exact ih acc m hok u ip hl
      · cases hv : validate_ip (pyStrip body) with
        | error e =>
          simp only [getPublicIpAux, hr, hemp, if_false, hv] at hok
          cases hok
        | ok b =>
          cases b
          · simp only [getPublicIpAux, hr, hemp, if_false, hv] at hok
            exact ih acc m hok u ip hl
          · simp only [getPublicIpAux, hr, hemp, if_false, hv] at hok
            rcases ih _ m hok u ip hl with hacc | hbody
            · rw [dictSet_lookup] at hacc
              by_cases hu : u = u0
              · rw [if_pos hu] at hacc
                injection hacc with hacc
                refine Or.inr ⟨body, hacc.symm, ?_⟩
                intro hh
                rw [List.isEmpty_iff] at hemp
                exact hemp hh
              · rw [if_neg hu] at hacc
                exact Or.inl hacc
            · exact Or.inr hbody

/-- C10: every address stored by the resolver is the whitespace-stripped
response body: it is non-empty and carries no leading or trailing
whitespace; concretely a service answering " 1.2.3.4\n" is stored as
"1.2.3.4". -/
theorem get_public_ip_stores_stripped (urls : List String)
    (respond : String → Except Unit (List Char)) (m : List (String × List Char))
    (u : String) (ip : List Char)
    (hok : get_public_ip urls respond = .ok m)
    (hlook : m.lookup u = some ip) :
    (ip ≠ [] ∧ (∀ c, ip.head? = some c → c.isWhitespace = false) ∧
      (∀ c, ip.getLast? = some c → c.isWhitespace = false)) ∧
    get_public_ip ["https://ipinfo.io/ip"] (fun _ => .ok " 1.2.3.4\n".toList) =
      .ok [("https://ipinfo.io/ip", "1.2.3.4".toList)] := by
  constructor
  · rcases getPublicIpAux_values respond urls [] m hok u ip hlook with hacc | ⟨body, hip, hne⟩
    · cases hacc
    · subst hip
      exact ⟨hne, fun c hc => pyStrip_head_not body c hc,
        fun c hc => pyStrip_getLast_not body c hc⟩
  · decide

/-- C10 witness: the property applied at the concrete run of the second
conjunct. -/
theorem get_public_ip_stores_stripped_witness :
    (("1.2.3.4".toList ≠ []) ∧
      (∀ c, "1.2.3.4".toList.head? = some c → c.isWhitespace = false) ∧
      (∀ c, "1.2.3.4".toList.getLast? = some c → c.isWhitespace = false)) ∧
    get_public_ip ["https://ipinfo.io/ip"] (fun _ => .ok " 1.2.3.4\n".toList) =
      .ok [("https://ipinfo.io/ip", "1.2.3.4".toList)] :=
  get_public_ip_stores_stripped ["https://ipinfo.io/ip"]
    (fun _ => .ok " 1.2.3.4\n".toList) [("https://ipinfo.io/ip", "1.2.3.4".toList)]
    "https://ipinfo.io/ip" "1.2.3.4".toList (by decide) (by decide)

/-! ## Cache store -/

/-- C1: for every cache file that exists and parses, carrying a
`timestamp` field (so that the effective timestamp t — the stored value
if truthy, else the file mtime — is defined), `check_cache_staleness`
returns the full parsed record exactly when now - t < ttl and returns
None exactly when now - t >= ttl. -/
theorem check_cache_staleness_fresh_iff {α : Type} (j : CacheJson α) (mt now ttl ts t : ℚ)
    (hts : j.timestamp = some ts) (ht : t = if ts ≠ 0 then ts else mt) :
    (check_cache_staleness (some (j, mt)) now ttl = .ok (some j) ↔ now - t < ttl) ∧
    (check_cache_staleness (some (j, mt)) now ttl = .ok none ↔ ttl ≤ now - t) := by
  obtain ⟨jts, jsv⟩ := j
  simp only [CacheJson.timestamp] at hts
  subst hts
  unfold check_cache_staleness
  dsimp only
  subst ht
  by_cases hfresh : now - (if ts ≠ 0 then ts else mt) < ttl
  · rw [if_pos hfresh]
    constructor
    · exact ⟨fun _ => hfresh, fun _ => rfl⟩
    · constructor
      · intro hh
        injection hh with hh
        cases hh
      · intro hh
        exact absurd hfresh (not_lt.mpr hh)
  · rw [if_neg hfresh]
    constructor
    · constructor
      · intro hh
        injection hh with hh
        cases hh
      · intro hh
        exact absurd hh hfresh
    · exact ⟨fun _ => not_lt.mp hfresh, fun _ => rfl⟩

/-- C1 witness: a record stamped 100 read at time 200 with TTL 3600 is
fresh; the strict/weak comparison pair instantiated there. -/
theorem check_cache_staleness_fresh_iff_witness :
    (check_cache_staleness (α := Nat) (some (⟨some 100, 7⟩, 50)) 200 3600 =
        .ok (some ⟨some 100, 7⟩) ↔ (200 : ℚ) - 100 < 3600) ∧
    (check_cache_staleness (α := Nat) (some (⟨some 100, 7⟩, 50)) 200 3600 =
        .ok none ↔ (3600 : ℚ) ≤ 200 - 100) :=
  check_cache_staleness_fresh_iff ⟨some 100, 7⟩ 50 200 3600 100 100 rfl (by norm_num)

/-- C2: the code contradicts its own docstring ("If the file has a
timestamp field, use that, otherwise check the file's last modification
time"): a parsed record with NO `timestamp` key makes
`json_cache["timestamp"]` raise KeyError instead of falling back to the
mtime, while a record with a falsy (zero) `timestamp` does fall back to
the mtime as documented. -/
theorem check_cache_staleness_missing_timestamp_raises :
    check_cache_staleness (α := List (String × String))
      (some (⟨none, [("https://ipinfo.io/ip", "93.45.1.10")]⟩, 1000)) 1500 3600 =
      .error .keyError ∧
    check_cache_staleness (α := List (String × String))
      (some (⟨some 0, [("https://ipinfo.io/ip", "93.45.1.10")]⟩, 1000)) 1500 3600 =
      .ok (some ⟨some 0, [("https://ipinfo.io/ip", "93.45.1.10")]⟩) := by
  constructor
  · rfl
  · norm_num [check_cache_staleness]

/-- C8: persisting a snapshot with `save_ip_list_to_cache` at a (truthy,
i.e. nonzero) time t0 and loading the same file while now - t0 < ttl
yields back the full record whose `services` field is exactly the
persisted snapshot. -/
theorem save_then_load_roundtrip {α : Type} (ip_list : α) (t0 mt now ttl : ℚ)
    (htruthy : t0 ≠ 0) (hfresh : now - t0 < ttl) :
    check_cache_staleness (some (save_ip_list_to_cache t0 ip_list, mt)) now ttl =
      .ok (some (save_ip_list_to_cache t0 ip_list)) ∧
    (save_ip_list_to_cache t0 ip_list).services = ip_list := by
  refine ⟨?_, rfl⟩
  unfold check_cache_staleness save_ip_list_to_cache
  dsimp only
  rw [if_pos htruthy, if_pos hfresh]

/-- C8 witness: the round trip at a concrete snapshot written at time
1000 and read one second later with TTL 3600. -/
theorem save_then_load_roundtrip_witness :
    check_cache_staleness
        (some (save_ip_list_to_cache 1000 [("https://ipinfo.io/ip", "1.2.3.4")], 1000))
        1001 3600 =
      .ok (some (save_ip_list_to_cache 1000 [("https://ipinfo.io/ip", "1.2.3.4")])) ∧
    (save_ip_list_to_cache (α := List (String × String)) 1000
        [("https://ipinfo.io/ip", "1.2.3.4")]).services = [("https://ipinfo.io/ip", "1.2.3.4")] :=
  save_then_load_roundtrip [("https://ipinfo.io/ip", "1.2.3.4")] 1000 1000 1001 3600
    (by norm_num) (by norm_num)

/-! ## Orchestrator cache phase and destination dispatch -/

/-- C3 counterexample: `main` calls `check_cache_staleness` on every run,
ignore-cache flag or not.  First conjunct: with ignore-cache set, an
existing cache file whose record lacks a `timestamp` key still gets read
and parsed, and the resulting KeyError aborts the run — impossible if the
load were skipped.  Second conjunct: with ignore-cache set and a fresh,
well-formed cache file, the phase trace still records the cache load
before resolving and overwriting. -/
theorem mainCachePhase_ignore_cache_counterexample :
    mainCachePhase (α := List (String × String)) true
      (some (⟨none, [("https://ipinfo.io/ip", "1.2.3.4")]⟩, 1000)) 1500 3600
      PUBLIC_IP_SERVICE_URL_LIST (fun _ => .error ()) = .error .keyError ∧
    mainCachePhase (α := List (String × String)) true
      (some (⟨some 100, [("https://ipinfo.io/ip", "1.2.3.4")]⟩, 1000)) 1500 3600
      ["https://ipinfo.io/ip"] (fun _ => .ok "9.9.9.9".toList) =
      .ok ([.evLoadCache, .evResolve, .evSaveCache],
        .usedFresh [("https://ipinfo.io/ip", "9.9.9.9".toList)]) := by
  constructor
  · rfl
  · have hc : check_cache_staleness (α := List (String × String))
        (some (⟨some 100, [("https://ipinfo.io/ip", "1.2.3.4")]⟩, 1000)) 1500 3600 =
        .ok (some ⟨some 100, [("https://ipinfo.io/ip", "1.2.3.4")]⟩) := by
      norm_num [check_cache_staleness]
    unfold mainCachePhase
    rw [hc]
    decide

/-- C3 amended: `check_cache_staleness` is invoked on every run; when the
ignore-cache flag is set a successfully loaded result is discarded — the
phase behaves exactly as if no cache file existed (fresh resolution and
cache overwrite) — and every successful trace still begins by reading the
cache file. -/
theorem mainCachePhase_ignore_discards {α : Type} (fs : Option (CacheJson α × ℚ))
    (now ttl : ℚ) (urls : List String) (respond : String → Except Unit (List Char))
    (r : Option (CacheJson α)) (tr : List MainEv) (o : PhaseOutcome α)
    (hload : check_cache_staleness fs now ttl = .ok r)
    (hrun : mainCachePhase true fs now ttl urls respond = .ok (tr, o)) :
    mainCachePhase true fs now ttl urls respond =
      mainCachePhase true none now ttl urls respond ∧
    MainEv.evLoadCache ∈ tr := by
  constructor
  · unfold mainCachePhase
    rw [hload]
    cases r <;> rfl
  · unfold mainCachePhase at hrun
    rw [hload] at hrun
    have hfresh : (match get_public_ip urls respond with
        | .error e => (.error e : Except PyErr (List MainEv × PhaseOutcome α))
        | .ok m =>
          if m.isEmpty then .ok ([.evLoadCache, .evResolve], .exitedNoIp)
          else .ok ([.evLoadCache, .evResolve, .evSaveCache], .usedFresh m)) =
        .ok (tr, o) := by
      cases r <;> exact hrun
    cases hg : get_public_ip urls respond with
    | error e =>
      rw [hg] at hfresh
      cases hfresh
    | ok m =>
      rw [hg] at hfresh
      dsimp only at hfresh
      by_cases hm : m.isEmpty
      · rw [if_pos hm] at hfresh
        injection hfresh with hfresh
        have htr : tr = [MainEv.evLoadCache, MainEv.evResolve] :=
          (congrArg Prod.fst hfresh).symm
        rw [htr]
        simp
      · rw [if_neg hm] at hfresh
        injection hfresh with hfresh
        have htr : tr = [MainEv.evLoadCache, MainEv.evResolve, MainEv.evSaveCache] :=
          (congrArg Prod.fst hfresh).symm
        rw [htr]
        simp

/-- C3 witness: the amended statement at a concrete run with a fresh
cached record, ignore-cache set, and one responding service. -/
theorem mainCachePhase_ignore_discards_witness :
    (mainCachePhase (α := List (String × String)) true
        (some (⟨some 100, [("https://ipinfo.io/ip", "1.2.3.4")]⟩, 1000)) 1500 3600
        ["https://ipinfo.io/ip"] (fun _ => .ok "9.9.9.9".toList) =
      mainCachePhase true none 1500 3600
        ["https://ipinfo.io/ip"] (fun _ => .ok "9.9.9.9".toList)) ∧
    MainEv.evLoadCache ∈ [MainEv.evLoadCache, MainEv.evResolve, MainEv.evSaveCache] :=
  mainCachePhase_ignore_discards
    (some (⟨some 100, [("https://ipinfo.io/ip", "1.2.3.4")]⟩, 1000)) 1500 3600
    ["https://ipinfo.io/ip"] (fun _ => .ok "9.9.9.9".toList)
    (some ⟨some 100, [("https://ipinfo.io/ip", "1.2.3.4")]⟩)
    [MainEv.evLoadCache, MainEv.evResolve, MainEv.evSaveCache]
    (.usedFresh [("https://ipinfo.io/ip", "9.9.9.9".toList)])
    (by norm_num [check_cache_staleness])
    mainCachePhase_ignore_cache_counterexample.2

/-- C9: destinations are dispatched strictly in configuration order (the
run is the elementwise map of the dispatcher over the configured list, one
outcome per destination), a destination whose `type` tag is not "scp"
produces only a warning event (the dispatcher raises nothing: it is a
total function into outcome events, mirroring the catch-all around the
transport), and the outcome of the head destination never changes how the
tail is processed. -/
theorem run_destination_op_order_and_skip (dests : List DestSpec)
    (transport : DestSpec → Except Unit Unit) (d : DestSpec) (rest : List DestSpec)
    (hunknown : d.type ≠ "scp") :
    runDestinations dests transport = dests.map (fun x => run_destination_op x transport) ∧
    run_destination_op d transport = .warnedUnknown d.type ∧
    runDestinations (d :: rest) transport =
      .warnedUnknown d.type :: runDestinations rest transport := by
  refine ⟨?_, ?_, ?_⟩
  · induction dests with
    | nil => rfl
    | cons a l ih => simp [runDestinations, ih]
  · simp [run_destination_op, hunknown]
  · simp [runDestinations, run_destination_op, hunknown]

/-- C9 witness: a two-destination configuration whose head has the
unknown type "http" and whose tail is an "scp" destination with a failing
transport. -/
theorem run_destination_op_order_and_skip_witness :
    (runDestinations
        [⟨"http", "a", "h1", 80, "u1", "k1", "/r1"⟩, ⟨"scp", "b", "h2", 22, "u2", "k2", "/r2"⟩]
        (fun _ => .error ()) =
      [⟨"http", "a", "h1", 80, "u1", "k1", "/r1"⟩,
        (⟨"scp", "b", "h2", 22, "u2", "k2", "/r2"⟩ : DestSpec)].map
        (fun x => run_destination_op x (fun _ => .error ()))) ∧
    run_destination_op ⟨"http", "a", "h1", 80, "u1", "k1", "/r1"⟩ (fun _ => .error ()) =
      .warnedUnknown "http" ∧
    runDestinations
        (⟨"http", "a", "h1", 80, "u1", "k1", "/r1"⟩ ::
          [⟨"scp", "b", "h2", 22, "u2", "k2", "/r2"⟩]) (fun _ => .error ()) =
      .warnedUnknown "http" ::
        runDestinations [⟨"scp", "b", "h2", 22, "u2", "k2", "/r2"⟩] (fun _ => .error ()) :=
  run_destination_op_order_and_skip
    [⟨"http", "a", "h1", 80, "u1", "k1", "/r1"⟩, ⟨"scp", "b", "h2", 22, "u2", "k2", "/r2"⟩]
    (fun _ => .error ()) ⟨"http", "a", "h1", 80, "u1", "k1", "/r1"⟩
    [⟨"scp", "b", "h2", 22, "u2", "k2", "/r2"⟩] (by decide)
